import Mathlib

set_option maxHeartbeats 1600000

/-!
Verification development for the CDCL SAT solver in `CDCL.c`.

The solver's global mutable state (model table, clause store, learned
clauses, trail, decision level, statistics counters) is embedded as a
single `SolverState` value.  Every function of the source that the
claims touch is translated literally, including its control flow
(`break` in the clause scan, the candidate range `0 .. width-3`, the
conflict copy loop pushing the same clause pointer, `unassign` not
touching the status field, ...).

Modelling conventions for C details that have no direct Lean analogue:
 * pointers to assignment records become indices `0 .. 2*num_vars - 1`
   into the model list (the source itself documents this encoding in
   `DIMACS_to_lit`);
 * pointers to clauses become indices into a single clause arena
   `clauses`; original clauses occupy the first slots in input order
   (matching `cnf.clauses`), learned clauses are appended;
 * a nulled watch-list slot is `Option.none`;
 * fields that `CDCL_init` leaves uninitialized (`truth_value`,
   `dec_level`, `ass_type`) are given the neutral values 0 /
   `DEC_MAX` / 3.  The source does read `dec_level` of a
   never-assigned record in the extinction test of the propagator
   (an uninitialized read in C); the model gives that read the
   sentinel `DEC_MAX`, the "unassigned" value the rest of the code
   uses, so the test is false there;
 * `dec_level_t` is `unsigned long`; decision levels never get near
   the top in any execution considered here, so plain `Nat` with
   `DEC_MAX = 2^64 - 1` is used;
 * the scan of a watch list additionally returns an instrumentation
   log (which watch-list positions were processed, which candidate
   positions were examined) and the state records which clause arena
   slots have been extinguished; the log and the `extinct` field are
   write-only from the point of view of the embedded code.
-/

-- result codes (CDCL.h is not part of the sources; the four state
-- machine constants are modelled as distinct naturals, their concrete
-- values are never load-bearing)
def DECIDE : Nat := 0
def PROPAGATE : Nat := 1
def CONFLICT : Nat := 2
def SUCCESS : Nat := 3

-- truth values
def POSITIVE : Int := 1
def NEGATIVE : Int := -1

-- highest decision level (indicates an unassigned variable); the C
-- value is ULONG_MAX on a 64-bit machine
def DEC_MAX : Nat := 2 ^ 64 - 1

-- assignment types
def DEC_ASS : Nat := 0
def PROP_ASS : Nat := 1
def CON_ASS : Nat := 2

-- assignment states
def DECEASED : Nat := 1
def ACTIVE : Nat := 2
def PENDING : Nat := 3
def AVAILABLE : Nat := 4

/-- Assignment record (`ass_t`): one per literal.  `watched_lits` is the
mutable of clause pointers; `none` models a nulled slot. -/
structure Ass where
  ass_status : Nat
  truth_value : Int
  ass_type : Nat
  dec_level : Nat
  num_active : Nat
  watched_lits : List (Option Nat)
deriving Repr, DecidableEq

instance : Inhabited Ass :=
  ⟨⟨AVAILABLE, 0, 3, DEC_MAX, 0, []⟩⟩

/-- Clause (`clause_t`): the literal array; the width is the length. -/
structure Clause where
  lits : List Nat
deriving Repr, DecidableEq

/-- The global solver state: the statics of `CDCL.c` gathered into one
value.  `clauses` is the clause arena (original clauses first, learned
clauses appended); `learned_refs` lists the arena slots pushed onto
`learned_cnf`; `extinct` records the arena slots whose watch-list entry
the propagator has nulled (instrumentation). -/
structure SolverState where
  num_vars : Nat
  model : List Ass
  clauses : List Clause
  learned_refs : List Nat
  seq : List Nat
  head : Nat
  tail : Nat
  dec_level : Nat
  num_conflicts : Nat
  num_decisions : Nat
  num_unit_props : Nat
  extinct : List Nat
deriving Repr, DecidableEq

/-- Read an assignment record (dereference a `model` pointer). -/
def assOf (s : SolverState) (lit : Nat) : Ass :=
  s.model.getD lit default

/-- Update one assignment record in place. -/
def updAss (s : SolverState) (lit : Nat) (f : Ass → Ass) : SolverState :=
  { s with model := s.model.set lit (f (s.model.getD lit default)) }

-- Direct field writes of the C code, named so that every state
-- transformation below is a composition of a handful of primitives.

/-- Write a literal at the trail tail and advance the tail. -/
def pushTrailSlot (s : SolverState) (lit : Nat) : SolverState :=
  { s with seq := s.seq.set s.tail lit, tail := s.tail + 1 }

/-- Overwrite the literal array of a clause in the arena. -/
def setClauseLits (s : SolverState) (cref : Nat) (lits : List Nat) : SolverState :=
  { s with clauses := s.clauses.set cref ⟨lits⟩ }

/-- Record that a watch-list slot holding this clause was nulled. -/
def markExtinct (s : SolverState) (cref : Nat) : SolverState :=
  { s with extinct := s.extinct ++ [cref] }

/-- `num_unit_props++`. -/
def bumpUnitProps (s : SolverState) : SolverState :=
  { s with num_unit_props := s.num_unit_props + 1 }

/-- `trail.head++`. -/
def incHead (s : SolverState) : SolverState :=
  { s with head := s.head + 1 }

/-- `dec_level++; num_decisions++`. -/
def bumpDecide (s : SolverState) : SolverState :=
  { s with dec_level := s.dec_level + 1, num_decisions := s.num_decisions + 1 }

/-- `num_conflicts++`. -/
def bumpConflicts (s : SolverState) : SolverState :=
  { s with num_conflicts := s.num_conflicts + 1 }

/-- Append a fresh clause to the arena. -/
def appendClause (s : SolverState) (lits : List Nat) : SolverState :=
  { s with clauses := s.clauses ++ [⟨lits⟩] }

/-- Push an arena slot onto the learned-clause store. -/
def appendLearnedRef (s : SolverState) (cref : Nat) : SolverState :=
  { s with learned_refs := s.learned_refs ++ [cref] }

/-- Set `head` and `tail` to the same slot and revert the decision
level (the tail of `backtrack`). -/
def setHeadTailLevel (s : SolverState) (h k : Nat) : SolverState :=
  { s with head := h, tail := h, dec_level := k }

-- LITERAL RELATED FUNCTIONS

/-- `DIMACS_to_lit`: converts a DIMACS literal into an internal literal
index: `value` ↦ `|value| - 1 + (value < 0) * num_vars`. -/
def DIMACS_to_lit (num_vars : Nat) (value : Int) : Nat :=
  value.natAbs - 1 + (if value < 0 then num_vars else 0)

/-- `lit_to_DIMACS`: converts an internal literal index back into a
DIMACS literal. -/
def lit_to_DIMACS (num_vars : Nat) (lit : Nat) : Int :=
  ((lit % num_vars : Nat) + 1 : Int) * (if lit < num_vars then 1 else -1)

/-- `get_comp_lit`: the complementary literal, at offset `num_vars`. -/
def get_comp_lit (num_vars : Nat) (lit : Nat) : Nat :=
  if lit < num_vars then lit + num_vars else lit - num_vars

-- ASSIGNMENT RELATED FUNCTIONS

/-- `assign`: writes the assignment satisfying `lit` into the model.
Sets the truth values of `lit` and its complement and both decision
levels to the current level; it does not touch the status field. -/
def assign (s : SolverState) (lit : Nat) : SolverState :=
  let comp_lit := get_comp_lit s.num_vars lit
  let s := updAss s lit
    (fun a => { a with truth_value := POSITIVE, dec_level := s.dec_level })
  updAss s comp_lit
    (fun a => { a with truth_value := NEGATIVE, dec_level := s.dec_level })

/-- `unassign`: sets the decision level of `lit` and of its complement
to `DEC_MAX`.  Note that the source resets only `dec_level`; the
status field is left as it was. -/
def unassign (s : SolverState) (lit : Nat) : SolverState :=
  let s := updAss s lit (fun a => { a with dec_level := DEC_MAX })
  updAss s (get_comp_lit s.num_vars lit) (fun a => { a with dec_level := DEC_MAX })

/-- The backward walk of `backtrack`: starting at trail slot `i`, while
the slot's literal has `dec_level > new_dec_level`, unassign it and
step down; returns the updated state and the final head index (the C
code decrements `trail.head` below `trail.sequence` and then increments
it back, which lands on index 0; the stop case lands on `i + 1`). -/
def btWalk (new_dec_level : Nat) : SolverState → Nat → SolverState × Nat
  | s, 0 =>
    if (assOf s (s.seq.getD 0 0)).dec_level > new_dec_level then
      (unassign s (s.seq.getD 0 0), 0)
    else (s, 1)
  | s, i + 1 =>
    if (assOf s (s.seq.getD (i + 1) 0)).dec_level > new_dec_level then
      btWalk new_dec_level (unassign s (s.seq.getD (i + 1) 0)) i
    else (s, i + 2)

/-- `backtrack`: walks backward from `trail.head` unassigning every
literal whose decision level exceeds `new_dec_level`, then sets
`tail := head` and reverts to the given decision level. -/
def backtrack (s : SolverState) (new_dec_level : Nat) : SolverState :=
  let r := btWalk new_dec_level s s.head
  setHeadTailLevel r.1 r.2 new_dec_level

-- TRAIL RELATED FUNCTIONS

/-- `trail_queue_lit`: marks `lit` and its complement `PENDING` with
the given assignment type and appends `lit` at the trail tail. -/
def trail_queue_lit (s : SolverState) (lit : Nat) (ass_type : Nat) : SolverState :=
  let comp_lit := get_comp_lit s.num_vars lit
  let s := updAss s lit (fun a => { a with ass_type := ass_type, ass_status := PENDING })
  let s := updAss s comp_lit (fun a => { a with ass_type := ass_type, ass_status := PENDING })
  pushTrailSlot s lit

-- CDCL INTERFACE IMPLEMENTATION

/-- One iteration of the literal-reading loop of `CDCL_init`: convert
the DIMACS literal, increment its `num_active` counter, and append it
to the clause being built. -/
def initLitStep (p : SolverState × List Nat) (d : Int) : SolverState × List Nat :=
  let l := DIMACS_to_lit p.1.num_vars d
  (updAss p.1 l (fun a => { a with num_active := a.num_active + 1 }), p.2 ++ [l])

/-- The literal-reading loop of `CDCL_init` for one stored clause of
width at least 2. -/
def initLits (s : SolverState) (c : List Int) : SolverState × List Nat :=
  c.foldl initLitStep (s, [])

/-- Append a clause reference to a literal's watch list
(`mutable_push` on `watched_lits`). -/
def pushWatch (s : SolverState) (lit : Nat) (cref : Nat) : SolverState :=
  updAss s lit (fun a => { a with watched_lits := a.watched_lits ++ [some cref] })

/-- The extinction loop of `CDCL_prop`: decrement the `num_active`
counter of every literal of an extinct clause. -/
def decActives (s : SolverState) (lits : List Nat) : SolverState :=
  lits.foldl (fun s l => updAss s l (fun a => { a with num_active := a.num_active - 1 })) s

/-- One clause of the `CDCL_init` reading loop: a width-1 clause is
queued at level 0 as a propagation and not stored; a wider clause is
stored in the arena, its literals' `num_active` counters incremented
and its first two literals watched.  (A width-0 input clause makes the
source report UNSAT and exit; no claim exercises that path and the
clause is simply skipped here.) -/
def initClause (s : SolverState) (c : List Int) : SolverState :=
  if c.length = 0 then s
  else if c.length = 1 then
    trail_queue_lit s (DIMACS_to_lit s.num_vars (c.getD 0 0)) PROP_ASS
  else
    let r := initLits s c
    let s := r.1
    let lits := r.2
    let cref := s.clauses.length
    let s := appendClause s lits
    let s := pushWatch s (get_comp_lit s.num_vars (lits.getD 0 0)) cref
    pushWatch s (get_comp_lit s.num_vars (lits.getD 1 0)) cref

/-- `CDCL_init` on an already-parsed DIMACS formula (the text parser is
out of scope; `input` is the clause list).  Allocates the model with
every record `AVAILABLE` and `num_active = 0`, the empty trail, and
reads the clauses. -/
def CDCL_init (num_vars : Nat) (input : List (List Int)) : SolverState :=
  let s : SolverState :=
    { num_vars := num_vars
      model := List.replicate (2 * num_vars) default
      clauses := []
      learned_refs := []
      seq := List.replicate (2 * num_vars) 0
      head := 0
      tail := 0
      dec_level := 0
      num_conflicts := 0
      num_decisions := 0
      num_unit_props := 0
      extinct := [] }
  input.foldl initClause s

-- THE PROPAGATOR

/-- Result of the candidate-literal loop of `CDCL_prop` for one clause:
the updated state, `clause_is_unit`, `clause_is_extinct`, and the list
of candidate positions the loop examined (instrumentation). -/
structure CandOut where
  st : SolverState
  is_unit : Bool
  is_extinct : Bool
  examined : List Nat
deriving Repr, DecidableEq

/-- The candidate-literal loop of `CDCL_prop`
(`for (which_lit = 0; which_lit < clause->width - 2; which_lit++)`).
`ps` is the list of remaining loop indices.  A deceased positive
candidate extinguishes the clause (decrementing every literal's
`num_active`); an eligible candidate is swapped into position 0 and
the clause is pushed onto the watch list of the complement of the new
front literal. -/
def candLoop (cref : Nat) : SolverState → List Nat → CandOut
  | s, [] => ⟨s, true, false, []⟩
  | s, j :: ps =>
    let lits := (s.clauses.getD cref ⟨[]⟩).lits
    let lj := lits.getD j 0
    if (assOf s lj).ass_status = DECEASED ∧ (assOf s lj).truth_value = POSITIVE then
      -- the clause is extinct; decrement active literal counters
      let s := decActives s lits
      ⟨markExtinct s cref, true, true, [j]⟩
    else if (assOf s lj).ass_status = PENDING ∨ (assOf s lj).ass_status = AVAILABLE ∨
        ((assOf s lj).ass_status = ACTIVE ∧ (assOf s lj).truth_value = POSITIVE) then
      -- eligible literal found: swap it with position 0 and watch it
      let l0 := lits.getD 0 0
      let lits2 := (lits.set 0 lj).set j l0
      let s := setClauseLits s cref lits2
      let s := pushWatch s (get_comp_lit s.num_vars (lits2.getD 0 0)) cref
      ⟨s, false, false, [j]⟩
    else
      let r := candLoop cref s ps
      ⟨r.st, r.is_unit, r.is_extinct, j :: r.examined⟩

/-- The swap at the head of the clause loop of `CDCL_prop`: if the
front literal is not the propagating literal, exchange positions 0 and
1 of the clause.  (The source compares against the propagating literal
itself, not its complement.) -/
def normalizeClause (s : SolverState) (propagator cref : Nat) : SolverState :=
  let lits0 := (s.clauses.getD cref ⟨[]⟩).lits
  if lits0.getD 0 0 ≠ propagator then
    setClauseLits s cref ((lits0.set 0 (lits0.getD 1 0)).set 1 (lits0.getD 0 0))
  else s

/-- Result of the watch-list scan of one propagator step. -/
structure ScanOut where
  st : SolverState
  nw : List (Option Nat)
  conflict : Bool
  visited : List Nat
  examined : List (Nat × List Nat)
deriving Repr, DecidableEq

/-- The clause loop of `CDCL_prop` for the propagating literal
`propagator`: `rest` is the remaining portion of the captured watch
list, `i` the current index, `nw` the replacement list built so far.
The extinction branch and the satisfied-other-watcher branch `break`
out of the loop exactly as in the source; the conflict branch pushes
the current clause pointer once per remaining unprocessed entry,
exactly as in the source. -/
def scanClauses (propagator : Nat) :
    SolverState → List (Option Nat) → Nat → List (Option Nat) →
    List Nat → List (Nat × List Nat) → ScanOut
  | s, [], _, nw, vis, exam => ⟨s, nw, false, vis, exam⟩
  | s, none :: rest, i, nw, vis, exam =>
    scanClauses propagator s rest (i + 1) nw vis exam
  | s, some cref :: rest, i, nw, vis, exam =>
    -- place the watched literal at the front of the clause
    let s := normalizeClause s propagator cref
    let lits := (s.clauses.getD cref ⟨[]⟩).lits
    let l1 := lits.getD 1 0
    if (assOf s l1).dec_level = 0 then
      -- the clause is extinct; decrement counters and break
      let s := decActives s lits
      ⟨markExtinct s cref, nw, false, vis ++ [i], exam⟩
    else if (assOf s l1).ass_status = ACTIVE then
      -- the watched literal is preserved, and the loop breaks
      ⟨s, nw ++ [some cref], false, vis ++ [i], exam⟩
    else
      let width := lits.length
      let r := candLoop cref s (List.range (width - 2))
      let s := r.st
      let exam := exam ++ [(i, r.examined)]
      if r.is_unit = true ∧ r.is_extinct = false then
        let s := bumpUnitProps s
        let nw := nw ++ [some cref]
        let u1 := ((s.clauses.getD cref ⟨[]⟩).lits).getD 1 0
        if (assOf s u1).ass_status = AVAILABLE then
          scanClauses propagator (trail_queue_lit s u1 PROP_ASS) rest (i + 1) nw
            (vis ++ [i]) exam
        else if (assOf s u1).truth_value = NEGATIVE then
          -- conflict: the source pushes the *current* clause pointer
          -- once for every unprocessed entry of the old list
          ⟨s, nw ++ List.replicate rest.length (some cref), true, vis ++ [i], exam⟩
        else
          scanClauses propagator s rest (i + 1) nw (vis ++ [i]) exam
      else
        scanClauses propagator s rest (i + 1) nw (vis ++ [i]) exam

/-- One step of `CDCL_prop` on the literal at the trail head: assign
it, scan its watch list, instate the replacement list, and on a clean
scan advance the head.  Returns the state, whether a conflict was
found, and the scan log. -/
def CDCL_prop_step (s : SolverState) : SolverState × Bool × ScanOut :=
  let propagator := s.seq.getD s.head 0
  let s := assign s propagator
  let data := (assOf s propagator).watched_lits
  let r := scanClauses propagator s data 0 [] [] []
  let s := updAss r.st propagator (fun a => { a with watched_lits := r.nw })
  if r.conflict then (s, true, r)
  else (incHead s, false, r)

/-- `CDCL_prop`: the full propagation cycle, processing trail entries
until `head = tail` (result `DECIDE`) or a conflict (result
`CONFLICT`).  The `fuel` argument bounds the number of steps; every
concrete execution below carries enough fuel. -/
def CDCL_prop : SolverState → Nat → SolverState × Nat
  | s, 0 => (s, DECIDE)
  | s, fuel + 1 =>
    if s.head = s.tail then (s, DECIDE)
    else
      let r := CDCL_prop_step s
      if r.2.1 then (r.1, CONFLICT)
      else CDCL_prop r.1 fuel

/-- The search of `CDCL_decide` for the lowest-indexed variable whose
record is `AVAILABLE`. -/
def findAvailable (s : SolverState) : Option Nat :=
  (List.range s.num_vars).find? (fun v => (assOf s v).ass_status = AVAILABLE)

/-- `CDCL_decide`: report `SUCCESS` if the trail is full; otherwise
queue the first available variable positively as a decision and raise
the decision level, or report `SUCCESS` if no variable is available. -/
def CDCL_decide (s : SolverState) : SolverState × Nat :=
  if s.head = s.num_vars then (s, SUCCESS)
  else
    match findAvailable s with
    | some v =>
      let s := updAss s v (fun a => { a with ass_type := DEC_ASS })
      let s := updAss s (v + s.num_vars) (fun a => { a with ass_type := DEC_ASS })
      let s := trail_queue_lit s v DEC_ASS
      (bumpDecide s, PROPAGATE)
    | none => (s, SUCCESS)

-- CONFLICT REPAIR

/-- One iteration of the learned-clause construction loop of
`CDCL_repair_conflict`: a variable whose record is not `AVAILABLE` and
whose assignment type is `DEC_ASS` contributes the negation of its
assignment at position `dec_level - dec_level(var)`. -/
def learnUpd (s : SolverState) (d : Nat) (lits : List Nat) (v : Nat) : List Nat :=
  if (assOf s v).ass_status ≠ AVAILABLE ∧ (assOf s v).ass_type = DEC_ASS then
    lits.set (d - (assOf s v).dec_level)
      (if (assOf s v).truth_value = POSITIVE then get_comp_lit s.num_vars v else v)
  else lits

/-- The learned clause built by `CDCL_repair_conflict`: a clause of
width `d` whose slots are filled by scanning all variables
(uninitialized slots carry the neutral literal 0). -/
def buildLearned (s : SolverState) (d : Nat) : List Nat :=
  (List.range s.num_vars).foldl (learnUpd s d) (List.replicate d 0)

/-- `CDCL_repair_conflict`: count the conflict; report UNSAT at level 0
(second component `true`); at levels other than 1 build the learned
clause, watch its first two literals and push it onto the learned
store; finally backtrack one level and queue the flipped decision.
(The source pushes the address of the stack-local `learned_clause`
struct; the model stores the clause value it holds at push time in a
fresh arena slot.) -/
def CDCL_repair_conflict (s : SolverState) : SolverState × Bool :=
  let s := bumpConflicts s
  if s.dec_level = 0 then (s, true)
  else
    let s :=
      if s.dec_level ≠ 1 then
        let L := buildLearned s s.dec_level
        let cref := s.clauses.length
        let s := appendClause s L
        let s := pushWatch s (get_comp_lit s.num_vars (L.getD 0 0)) cref
        let s := pushWatch s (get_comp_lit s.num_vars (L.getD 1 0)) cref
        appendLearnedRef s cref
      else s
    let s := backtrack s (s.dec_level - 1)
    (trail_queue_lit s (get_comp_lit s.num_vars (s.seq.getD s.head 0)) CON_ASS, false)

-- ANALYSIS DEFINITIONS

/-- The public operations of the solver interface, as invoked by the
search driver. -/
inductive SolverOp where
  | dec : SolverOp
  | prop : Nat → SolverOp
  | rep : SolverOp
deriving Repr, DecidableEq

/-- Apply one public operation (dropping the return code). -/
def runOp (s : SolverState) : SolverOp → SolverState
  | SolverOp.dec => (CDCL_decide s).1
  | SolverOp.prop fuel => (CDCL_prop s fuel).1
  | SolverOp.rep => (CDCL_repair_conflict s).1

/-- Apply a sequence of public operations. -/
def runOps (s : SolverState) (ops : List SolverOp) : SolverState :=
  ops.foldl runOp s

/-- A status field holds one of the two values the solver ever writes. -/
def statusOK (a : Ass) : Prop :=
  a.ass_status = PENDING ∨ a.ass_status = AVAILABLE

/-- Every assignment record of the state has a status the solver writes. -/
def GoodStatus (s : SolverState) : Prop :=
  ∀ l : Nat, statusOK (assOf s l)

/-- The number of non-extinguished clauses of the arena that contain
the literal `l`. -/
def liveCount (s : SolverState) (l : Nat) : Nat :=
  (List.range s.clauses.length).countP
    (fun i => !(s.extinct.contains i) && ((s.clauses.getD i ⟨[]⟩).lits.contains l))

/-- The number of occurrences of `l` in a list of literals. -/
def occCount (l : Nat) : List Nat → Nat
  | [] => 0
  | x :: t => (if x = l then 1 else 0) + occCount l t

/-- The number of occurrences of the internal literal `l` among the
input clauses of width at least 2 (the clauses `CDCL_init` stores). -/
def storedOccCount (V : Nat) (input : List (List Int)) (l : Nat) : Nat :=
  match input with
  | [] => 0
  | c :: t =>
    (if 2 ≤ c.length then occCount l (c.map (DIMACS_to_lit V)) else 0) +
      storedOccCount V t l

/-- The shape in which the backward walk of `backtrack` stops: either
it ran off the bottom of the trail (head index 0, bottom slot already
unassigned), or it stopped one slot above a surviving entry; in both
cases the slot at the returned head index holds a literal whose
variable is unassigned. -/
def StopSpec (s : SolverState) (k p : Nat) : Prop :=
  ((assOf s (s.seq.getD p 0)).dec_level = DEC_MAX ∧
    (assOf s (get_comp_lit s.num_vars (s.seq.getD p 0))).dec_level = DEC_MAX) ∧
  (p = 0 ∨ (assOf s (s.seq.getD (p - 1) 0)).dec_level ≤ k)

-- CONCRETE EXECUTIONS

/-- Formula A: `p cnf 3 4` with clauses `3`, `3 -1`, `-1 -2`, `-2 1`
(variable 1 is `a`, 2 is `b`, 3 is `d`; internal literals
`a=0, b=1, d=2, -a=3, -b=4, -d=5`; stored arena slots:
`0 ↦ [d,-a]`, `1 ↦ [-a,-b]`, `2 ↦ [-b,a]`). -/
def inputA : List (List Int) := [[3], [3, -1], [-1, -2], [-2, 1]]

/-- Formula A after `CDCL_init` (the unit clause is queued, the driver
state is PROPAGATE). -/
def stA0 : SolverState := CDCL_init 3 inputA

/-- Formula A after propagating the unit clause at level 0. -/
def stA1 : SolverState := (CDCL_prop stA0 10).1

/-- Formula A after deciding variable 1 at level 1. -/
def stA2 : SolverState := (CDCL_decide stA1).1

/-- Formula A after the level-1 propagation cycle (clause 0 is
extinguished there). -/
def stA3 : SolverState := (CDCL_prop stA2 10).1

/-- Formula A after deciding variable 2 at level 2. -/
def stA4 : SolverState := (CDCL_decide stA3).1

/-- Formula A in the conflict state produced by the level-2
propagation cycle. -/
def stA5 : SolverState := (CDCL_prop stA4 10).1

/-- Formula A after conflict repair at level 2 (a clause is learned). -/
def stA6 : SolverState := (CDCL_repair_conflict stA5).1

/-- Formula B: `p cnf 2 2` with clauses `2 -1` and `-1 -2`
(internal literals `a=0, b=1, -a=2, -b=3`). -/
def inputB : List (List Int) := [[2, -1], [-1, -2]]

/-- Formula B after `CDCL_init`. -/
def stB0 : SolverState := CDCL_init 2 inputB

/-- Formula B after deciding variable 1 at level 1. -/
def stB1 : SolverState := (CDCL_decide stB0).1

/-- Formula B in the conflict state produced by the level-1
propagation cycle (variable 2 was queued but never assigned). -/
def stB2 : SolverState := (CDCL_prop stB1 10).1

/-- Formula B after conflict repair at level 1 (flip, no clause). -/
def stB3 : SolverState := (CDCL_repair_conflict stB2).1

/-- Formula B after propagating the flipped decision at level 0. -/
def stB4 : SolverState := (CDCL_prop stB3 10).1

/-- Formula C: `p cnf 3 1` with the single clause `-1 3 2`
(stored as arena slot `0 ↦ [-1, 3, 2] = [3, 2, 1]` internally). -/
def inputC : List (List Int) := [[-1, 3, 2]]

/-- Formula C after `CDCL_init`. -/
def stC0 : SolverState := CDCL_init 3 inputC

/-- Formula C after deciding variable 1 at level 1. -/
def stC1 : SolverState := (CDCL_decide stC0).1

/-- A tautological one-clause formula over one variable, used to
exercise `unassign` on a queued literal. -/
def stD0 : SolverState := trail_queue_lit (CDCL_init 1 [[1, -1]]) 0 PROP_ASS

/-- A handcrafted solver state with two decisions (variable 1 at level
1, variable 2 at level 2, both positive) and a current decision level
of 2, about to undergo conflict repair. -/
def stE0 : SolverState :=
  { num_vars := 2
    model := [⟨PENDING, 1, DEC_ASS, 1, 0, []⟩, ⟨PENDING, 1, DEC_ASS, 2, 0, []⟩,
              ⟨PENDING, -1, DEC_ASS, 1, 0, []⟩, ⟨PENDING, -1, DEC_ASS, 2, 0, []⟩]
    clauses := []
    learned_refs := []
    seq := [0, 1, 0, 0]
    head := 1
    tail := 2
    dec_level := 2
    num_conflicts := 0
    num_decisions := 2
    num_unit_props := 0
    extinct := [] }

/-- The decision variable of each level of `stE0`. -/
def dvE0 : Nat → Nat := fun k => k - 1

-- THEOREMS

/-- Helper: reading a slot just written. -/
theorem getD_set_self {α : Type} (l : List α) (i : Nat) (v d : α) (h : i < l.length) :
    (l.set i v).getD i d = v := by
  simp [List.getD_eq_getElem?_getD, List.getElem?_set_self, h]

/-- Helper: reading a slot other than the one written. -/
theorem getD_set_ne {α : Type} (l : List α) (i j : Nat) (v d : α) (h : i ≠ j) :
    (l.set i v).getD j d = l.getD j d := by
  simp [List.getD_eq_getElem?_getD, List.getElem?_set_ne h]

/-- Helper: writing back the value already present is the identity. -/
theorem set_getD_self {α : Type} (l : List α) (i : Nat) (d : α) :
    l.set i (l.getD i d) = l := by
  induction l generalizing i with
  | nil => simp
  | cons a t ih =>
    cases i with
    | zero => simp [List.getD]
    | succ j =>
      have hmain := ih j
      simp [List.set, List.getD] at hmain ⊢
      exact hmain

/-- Helper: reading a replicated list in range. -/
theorem getD_replicate {α : Type} (n i : Nat) (v d : α) (h : i < n) :
    (List.replicate n v).getD i d = v := by
  simp [List.getD_eq_getElem?_getD, List.getElem?_replicate, h]

/-- Helper: reading out of range gives the default record. -/
theorem assOf_oob (s : SolverState) (l : Nat) (h : s.model.length ≤ l) :
    assOf s l = default := by
  unfold assOf
  rw [List.getD_eq_getElem?_getD, List.getElem?_eq_none h]
  rfl

/-- How `assOf` reads through `updAss`. -/
theorem assOf_updAss (s : SolverState) (i : Nat) (f : Ass → Ass) (l : Nat) :
    assOf (updAss s i f) l =
      if l = i ∧ i < s.model.length then f (assOf s i) else assOf s l := by
  by_cases h1 : i < s.model.length
  · by_cases h2 : l = i
    · subst h2
      show (s.model.set l _).getD l default = _
      rw [getD_set_self _ _ _ _ h1, if_pos ⟨rfl, h1⟩]
      rfl
    · show (s.model.set i _).getD l default = _
      rw [getD_set_ne _ _ _ _ _ (fun hh => h2 hh.symm)]
      simp [h2, assOf]
  · show (s.model.set i _).getD l default = _
    rw [List.set_eq_of_length_le (Nat.le_of_not_lt h1)]
    simp [h1, assOf]

/-- A projection untouched by the record transform of an `updAss` is
untouched on every record. -/
theorem proj_assOf_updAss {α : Type} (g : Ass → α) (s : SolverState) (i : Nat)
    (f : Ass → Ass) (l : Nat) (hf : ∀ a, g (f a) = g a) :
    g (assOf (updAss s i f) l) = g (assOf s l) := by
  rw [assOf_updAss]
  split
  · next h => rw [hf, h.1]
  · rfl

/-- `updAss` preserves the good-status property when the transform
does. -/
theorem good_updAss (s : SolverState) (i : Nat) (f : Ass → Ass)
    (hg : GoodStatus s) (hf : ∀ a, statusOK a → statusOK (f a)) :
    GoodStatus (updAss s i f) := by
  intro l
  rw [assOf_updAss]
  split
  · exact hf _ (hg i)
  · exact hg l

/-- Claim C9: for every nonzero DIMACS literal `x` with `1 ≤ |x| ≤ V`,
converting to the internal form and back is the identity:
`lit_to_DIMACS (DIMACS_to_lit x) = x`. -/
theorem lit_DIMACS_round_trip (V : Nat) (x : Int)
    (h1 : 1 ≤ x.natAbs) (h2 : x.natAbs ≤ V) :
    lit_to_DIMACS V (DIMACS_to_lit V x) = x := by
  unfold lit_to_DIMACS DIMACS_to_lit
  rcases lt_trichotomy x 0 with hx | hx | hx
  · have hxa : (x.natAbs : Int) = -x := Int.ofNat_natAbs_of_nonpos (le_of_lt hx)
    have hV : 1 ≤ V := le_trans h1 h2
    have hlt : x.natAbs - 1 < V := by omega
    simp only [if_pos hx]
    have hge : ¬ (x.natAbs - 1 + V < V) := by omega
    rw [if_neg hge]
    have hmod : (x.natAbs - 1 + V) % V = x.natAbs - 1 := by
      rw [Nat.add_mod_right, Nat.mod_eq_of_lt hlt]
    rw [hmod]
    have hcast : ((x.natAbs - 1 : Nat) : Int) = (x.natAbs : Int) - 1 := by omega
    rw [hcast, hxa]
    ring
  · omega
  · have hxa : (x.natAbs : Int) = x := Int.natAbs_of_nonneg (le_of_lt hx)
    have hnneg : ¬ x < 0 := by omega
    simp only [if_neg hnneg, Nat.add_zero]
    have hlt : x.natAbs - 1 < V := by omega
    rw [if_pos hlt, Nat.mod_eq_of_lt hlt]
    have hcast : ((x.natAbs - 1 : Nat) : Int) = (x.natAbs : Int) - 1 := by omega
    rw [hcast, hxa]
    ring

/-- Witness for C9 at `x = -2`, `V = 3`. -/
theorem lit_DIMACS_round_trip_witness :
    (1 ≤ (-2 : Int).natAbs ∧ (-2 : Int).natAbs ≤ 3) ∧
      lit_to_DIMACS 3 (DIMACS_to_lit 3 (-2)) = -2 :=
  ⟨by decide, lit_DIMACS_round_trip 3 (-2) (by decide) (by decide)⟩

/-- Claim C1 (refuting evaluation): in the reachable state `stA2` the
literal at the trail head is 0 and its watch list holds the two
non-null clauses 0 and 1; the propagator step on it exits without
conflict, yet it visits only position 0: extinguishing clause 0 (its
other watcher, literal 2, is at decision level 0) executes `break` and
terminates the scan, and the replacement watch list comes out empty,
dropping clause 1.  This contradicts the claimed behaviour that the
scan continues with the remaining clauses. -/
theorem prop_step_break_on_extinction :
    stA2.seq.getD stA2.head 0 = 0 ∧
    (assOf stA2 0).watched_lits = [some 0, some 1] ∧
    (CDCL_prop_step stA2).2.1 = false ∧
    (CDCL_prop_step stA2).2.2.visited = [0] ∧
    (CDCL_prop_step stA2).2.2.st.extinct = [0] ∧
    (assOf (CDCL_prop_step stA2).1 0).watched_lits = [] := by decide

/-- Claim C2 (refuting evaluation): in the reachable state `stA4` the
watch list of the propagated literal 1 is `[some 1, some 2]`; the step
detects a conflict on the clause at position 0, and the replacement
list that is instated is `[some 1, some 1]` — the unprocessed entry
`some 2` is not copied; instead the conflicting clause pointer is
pushed again. -/
theorem prop_conflict_copy_is_wrong :
    stA4.seq.getD stA4.head 0 = 1 ∧
    (assOf stA4 1).watched_lits = [some 1, some 2] ∧
    (CDCL_prop stA4 10).2 = CONFLICT ∧
    (assOf stA5 1).watched_lits = [some 1, some 1] := by decide

/-- Claim C3 (refuting evaluation): `unassign` on the queued literal 0
of `stD0` resets both decision levels to `DEC_MAX` but leaves both
statuses `PENDING`; the claimed transition to `AVAILABLE` does not
happen because the source writes only the `dec_level` fields. -/
theorem unassign_leaves_status_pending :
    (assOf stD0 0).ass_status = PENDING ∧
    (assOf stD0 1).ass_status = PENDING ∧
    (assOf (unassign stD0 0) 0).dec_level = DEC_MAX ∧
    (assOf (unassign stD0 0) 1).dec_level = DEC_MAX ∧
    (assOf (unassign stD0 0) 0).ass_status = PENDING ∧
    (assOf (unassign stD0 0) 1).ass_status = PENDING := by decide

/-- Claim C4 (refuting evaluation): the state `stB4` is reached from
`CDCL_init` by decide, propagate (conflict), repair, propagate; in it
the decision search finds no `AVAILABLE` variable and `CDCL_decide`
reports `SUCCESS` through the no-available path (the trail-full test
does not fire), yet variable 2 is unassigned: its decision level is
`DEC_MAX` because it was queued, discarded by the backtrack, and its
status was never restored to `AVAILABLE`. -/
theorem decide_success_with_unassigned_var :
    (CDCL_decide stB0).2 = PROPAGATE ∧
    (CDCL_prop stB1 10).2 = CONFLICT ∧
    (CDCL_repair_conflict stB2).2 = false ∧
    (CDCL_prop stB3 10).2 = DECIDE ∧
    findAvailable stB4 = none ∧
    stB4.head ≠ stB4.num_vars ∧
    (CDCL_decide stB4).2 = SUCCESS ∧
    (assOf stB4 1).dec_level = DEC_MAX := by decide

/-- Claim C5 (refuting evaluation): in the reachable state `stC1` the
propagator step processes the width-3 clause 0; the replacement-watcher
search examines exactly candidate position 0 (the loop runs over
`0 .. width-3`), never position 2, and accepts the literal at position
0 — contradicting the claimed range `2 .. width-1`. -/
theorem candidate_search_examines_position_zero :
    ((stC1.clauses.getD 0 ⟨[]⟩).lits).length = 3 ∧
    (CDCL_prop_step stC1).2.2.examined = [(0, [0])] ∧
    (CDCL_prop_step stC1).2.1 = false := by decide

/-- Claim C6 (counterexample): in the reachable state `stA6`, reached
right after the first conflict repair at decision level 2, the literal
3 occurs in the two non-extinguished clauses 1 (original) and 3 (the
just-learned clause), but `num_active[3] = 1`: the repair appended a
learned clause containing literal 3 without incrementing the counter. -/
theorem num_active_mismatch_after_learning :
    (CDCL_repair_conflict stA5).2 = false ∧
    stA5.dec_level = 2 ∧
    (assOf stA6 3).num_active = 1 ∧
    liveCount stA6 3 = 2 := by decide

/-- The record-update primitives that do not touch the model table
preserve every record verbatim. -/
theorem assOf_pushTrailSlot (s : SolverState) (x l : Nat) :
    assOf (pushTrailSlot s x) l = assOf s l := rfl

theorem assOf_setClauseLits (s : SolverState) (c : Nat) (w : List Nat) (l : Nat) :
    assOf (setClauseLits s c w) l = assOf s l := rfl

theorem assOf_markExtinct (s : SolverState) (c l : Nat) :
    assOf (markExtinct s c) l = assOf s l := rfl

theorem assOf_bumpUnitProps (s : SolverState) (l : Nat) :
    assOf (bumpUnitProps s) l = assOf s l := rfl

theorem assOf_incHead (s : SolverState) (l : Nat) :
    assOf (incHead s) l = assOf s l := rfl

theorem assOf_bumpDecide (s : SolverState) (l : Nat) :
    assOf (bumpDecide s) l = assOf s l := rfl

theorem assOf_bumpConflicts (s : SolverState) (l : Nat) :
    assOf (bumpConflicts s) l = assOf s l := rfl

theorem assOf_appendClause (s : SolverState) (w : List Nat) (l : Nat) :
    assOf (appendClause s w) l = assOf s l := rfl

theorem assOf_appendLearnedRef (s : SolverState) (c l : Nat) :
    assOf (appendLearnedRef s c) l = assOf s l := rfl

theorem assOf_setHeadTailLevel (s : SolverState) (h k l : Nat) :
    assOf (setHeadTailLevel s h k) l = assOf s l := rfl

/-- Good statuses through each model-preserving primitive. -/
theorem good_pushTrailSlot (s : SolverState) (x : Nat) (hg : GoodStatus s) :
    GoodStatus (pushTrailSlot s x) := fun l => hg l

theorem good_setClauseLits (s : SolverState) (c : Nat) (w : List Nat)
    (hg : GoodStatus s) : GoodStatus (setClauseLits s c w) := fun l => hg l

theorem good_markExtinct (s : SolverState) (c : Nat) (hg : GoodStatus s) :
    GoodStatus (markExtinct s c) := fun l => hg l

theorem good_bumpUnitProps (s : SolverState) (hg : GoodStatus s) :
    GoodStatus (bumpUnitProps s) := fun l => hg l

theorem good_incHead (s : SolverState) (hg : GoodStatus s) :
    GoodStatus (incHead s) := fun l => hg l

theorem good_bumpDecide (s : SolverState) (hg : GoodStatus s) :
    GoodStatus (bumpDecide s) := fun l => hg l

theorem good_bumpConflicts (s : SolverState) (hg : GoodStatus s) :
    GoodStatus (bumpConflicts s) := fun l => hg l

theorem good_appendClause (s : SolverState) (w : List Nat) (hg : GoodStatus s) :
    GoodStatus (appendClause s w) := fun l => hg l

theorem good_appendLearnedRef (s : SolverState) (c : Nat) (hg : GoodStatus s) :
    GoodStatus (appendLearnedRef s c) := fun l => hg l

theorem good_setHeadTailLevel (s : SolverState) (h k : Nat) (hg : GoodStatus s) :
    GoodStatus (setHeadTailLevel s h k) := fun l => hg l

/-- `assign` preserves good statuses (it writes no status field). -/
theorem good_assign (s : SolverState) (x : Nat) (hg : GoodStatus s) :
    GoodStatus (assign s x) := by
  unfold assign
  apply good_updAss
  · apply good_updAss
    · exact hg
    · exact fun _ h => h
  · exact fun _ h => h

/-- `unassign` preserves good statuses (it writes no status field). -/
theorem good_unassign (s : SolverState) (x : Nat) (hg : GoodStatus s) :
    GoodStatus (unassign s x) := by
  unfold unassign
  apply good_updAss
  · apply good_updAss
    · exact hg
    · exact fun _ h => h
  · exact fun _ h => h

/-- `trail_queue_lit` writes only the status `PENDING`. -/
theorem good_queue (s : SolverState) (x t : Nat) (hg : GoodStatus s) :
    GoodStatus (trail_queue_lit s x t) := by
  unfold trail_queue_lit
  apply good_pushTrailSlot
  apply good_updAss
  · apply good_updAss
    · exact hg
    · exact fun _ _ => Or.inl rfl
  · exact fun _ _ => Or.inl rfl

/-- `pushWatch` preserves good statuses. -/
theorem good_pushWatch (s : SolverState) (x c : Nat) (hg : GoodStatus s) :
    GoodStatus (pushWatch s x c) := by
  unfold pushWatch
  apply good_updAss
  · exact hg
  · exact fun _ h => h

/-- `decActives` preserves good statuses. -/
theorem good_decActives (lits : List Nat) :
    ∀ s : SolverState, GoodStatus s → GoodStatus (decActives s lits) := by
  induction lits with
  | nil => intro s h; exact h
  | cons a t ih =>
    intro s h
    apply ih
    apply good_updAss
    · exact h
    · exact fun _ hh => hh

/-- The backward walk of `backtrack` preserves good statuses. -/
theorem good_btWalk (k : Nat) :
    ∀ (i : Nat) (s : SolverState), GoodStatus s → GoodStatus (btWalk k s i).1 := by
  intro i
  induction i with
  | zero =>
    intro s h
    unfold btWalk
    split
    · exact good_unassign _ _ h
    · exact h
  | succ i ih =>
    intro s h
    unfold btWalk
    split
    · exact ih _ (good_unassign _ _ h)
    · exact h

/-- `backtrack` preserves good statuses. -/
theorem good_backtrack (s : SolverState) (k : Nat) (hg : GoodStatus s) :
    GoodStatus (backtrack s k) := by
  unfold backtrack
  apply good_setHeadTailLevel
  exact good_btWalk k s.head s hg

/-- `normalizeClause` preserves good statuses (it touches only the
clause arena). -/
theorem good_normalize (s : SolverState) (p c : Nat) (hg : GoodStatus s) :
    GoodStatus (normalizeClause s p c) := by
  unfold normalizeClause
  dsimp only
  split
  · apply good_setClauseLits
    exact hg
  · exact hg

/-- The candidate loop preserves good statuses. -/
theorem good_candLoop (cref : Nat) :
    ∀ (ps : List Nat) (s : SolverState), GoodStatus s → GoodStatus (candLoop cref s ps).st := by
  intro ps
  induction ps with
  | nil => intro s h; exact h
  | cons j t ih =>
    intro s h
    unfold candLoop
    dsimp only
    split
    · apply good_markExtinct
      exact good_decActives _ _ h
    · split
      · apply good_pushWatch
        apply good_setClauseLits
        exact h
      · exact ih _ h

/-- The clause scan of one propagator step preserves good statuses. -/
theorem good_scanClauses (p : Nat) :
    ∀ (data : List (Option Nat)) (s : SolverState) (i : Nat) (nw : List (Option Nat))
      (vis : List Nat) (exam : List (Nat × List Nat)),
      GoodStatus s → GoodStatus (scanClauses p s data i nw vis exam).st := by
  intro data
  induction data with
  | nil => intro s i nw vis exam h; exact h
  | cons hd rest ih =>
    intro s i nw vis exam h
    cases hd with
    | none => exact ih s (i + 1) nw vis exam h
    | some cref =>
      unfold scanClauses
      dsimp only
      have h1 : GoodStatus (normalizeClause s p cref) := good_normalize _ _ _ h
      split
      · apply good_markExtinct
        exact good_decActives _ _ h1
      · split
        · exact h1
        · split
          · split
            · apply ih
              apply good_queue
              apply good_bumpUnitProps
              exact good_candLoop _ _ _ h1
            · split
              · apply good_bumpUnitProps
                exact good_candLoop _ _ _ h1
              · apply ih
                apply good_bumpUnitProps
                exact good_candLoop _ _ _ h1
          · apply ih
            exact good_candLoop _ _ _ h1

/-- One propagator step preserves good statuses. -/
theorem good_prop_step (s : SolverState) (hg : GoodStatus s) :
    GoodStatus (CDCL_prop_step s).1 := by
  unfold CDCL_prop_step
  dsimp only
  split
  · apply good_updAss
    · exact good_scanClauses _ _ _ _ _ _ _ (good_assign _ _ hg)
    · exact fun _ h => h
  · apply good_incHead
    apply good_updAss
    · exact good_scanClauses _ _ _ _ _ _ _ (good_assign _ _ hg)
    · exact fun _ h => h

/-- The propagation cycle preserves good statuses. -/
theorem good_prop (fuel : Nat) :
    ∀ s : SolverState, GoodStatus s → GoodStatus (CDCL_prop s fuel).1 := by
  induction fuel with
  | zero => intro s h; exact h
  | succ n ih =>
    intro s h
    unfold CDCL_prop
    dsimp only
    split
    · exact h
    · split
      · exact good_prop_step s h
      · exact ih _ (good_prop_step s h)

/-- `CDCL_decide` preserves good statuses. -/
theorem good_decide (s : SolverState) (hg : GoodStatus s) :
    GoodStatus (CDCL_decide s).1 := by
  unfold CDCL_decide
  dsimp only
  split
  · exact hg
  · split
    · apply good_bumpDecide
      apply good_queue
      apply good_updAss
      · apply good_updAss
        · exact hg
        · exact fun _ h => h
      · exact fun _ h => h
    · exact hg

/-- `CDCL_repair_conflict` preserves good statuses. -/
theorem good_repair (s : SolverState) (hg : GoodStatus s) :
    GoodStatus (CDCL_repair_conflict s).1 := by
  unfold CDCL_repair_conflict
  dsimp only
  have hb : GoodStatus (bumpConflicts s) := good_bumpConflicts s hg
  split
  · exact hb
  · split
    · apply good_queue
      apply good_backtrack
      apply good_appendLearnedRef
      apply good_pushWatch
      apply good_pushWatch
      apply good_appendClause
      exact hb
    · apply good_queue
      apply good_backtrack
      exact hb

/-- The literal-reading fold of `CDCL_init` preserves good statuses. -/
theorem good_initLitFold (c : List Int) :
    ∀ (s : SolverState) (acc : List Nat), GoodStatus s →
      GoodStatus (c.foldl initLitStep (s, acc)).1 := by
  induction c with
  | nil => intro s acc h; exact h
  | cons d t ih =>
    intro s acc h
    exact ih _ _ (good_updAss _ _ _ h (fun _ hh => hh))

/-- `initClause` preserves good statuses. -/
theorem good_initClause (s : SolverState) (c : List Int) (hg : GoodStatus s) :
    GoodStatus (initClause s c) := by
  unfold initClause
  split
  · exact hg
  · split
    · exact good_queue _ _ _ hg
    · exact good_pushWatch _ _ _ (good_pushWatch _ _ _ (good_initLitFold c s [] hg))

/-- `CDCL_init` produces a state with good statuses. -/
theorem good_init (V : Nat) (input : List (List Int)) :
    GoodStatus (CDCL_init V input) := by
  have hstart : ∀ s : SolverState, s.model = List.replicate (2 * V) default → GoodStatus s := by
    intro s hm l
    unfold statusOK assOf
    rw [hm]
    by_cases hl : l < 2 * V
    · rw [getD_replicate _ _ _ _ hl]
      exact Or.inr rfl
    · rw [List.getD_eq_getElem?_getD,
        List.getElem?_eq_none (by simpa using Nat.le_of_not_lt hl)]
      exact Or.inr rfl
  unfold CDCL_init
  have : ∀ (inp : List (List Int)) (s : SolverState), GoodStatus s →
      GoodStatus (inp.foldl initClause s) := by
    intro inp
    induction inp with
    | nil => intro s h; exact h
    | cons c t ih => intro s h; exact ih _ (good_initClause _ _ h)
  exact this input _ (hstart _ rfl)

/-- Every public operation preserves good statuses. -/
theorem good_runOp (s : SolverState) (op : SolverOp) (hg : GoodStatus s) :
    GoodStatus (runOp s op) := by
  cases op with
  | dec => exact good_decide s hg
  | prop fuel => exact good_prop fuel s hg
  | rep => exact good_repair s hg

/-- Any sequence of public operations preserves good statuses. -/
theorem good_runOps (ops : List SolverOp) :
    ∀ s : SolverState, GoodStatus s → GoodStatus (runOps s ops) := by
  induction ops with
  | nil => intro s h; exact h
  | cons op t ih => intro s h; exact ih _ (good_runOp s op h)

/-- Claim C8: in every state reachable from `CDCL_init` through the
public operations, every assignment record's status is `AVAILABLE` or
`PENDING`; in particular it is never `ACTIVE` and never `DECEASED`, so
every comparison of a status against those two values is false. -/
theorem status_only_pending_or_available (V : Nat) (input : List (List Int))
    (ops : List SolverOp) (l : Nat) :
    ((assOf (runOps (CDCL_init V input) ops) l).ass_status = AVAILABLE ∨
      (assOf (runOps (CDCL_init V input) ops) l).ass_status = PENDING) ∧
    (assOf (runOps (CDCL_init V input) ops) l).ass_status ≠ ACTIVE ∧
    (assOf (runOps (CDCL_init V input) ops) l).ass_status ≠ DECEASED := by
  have h := good_runOps ops _ (good_init V input) l
  unfold statusOK at h
  refine ⟨h.symm, ?_, ?_⟩
  · rcases h with h | h <;> rw [h] <;> decide
  · rcases h with h | h <;> rw [h] <;> decide

-- num_active BOOK-KEEPING

/-- `updAss` with a counter-preserving transform preserves `num_active`. -/
theorem num_active_updAss_keep (s : SolverState) (i : Nat) (f : Ass → Ass) (l : Nat)
    (hf : ∀ a, (f a).num_active = a.num_active) :
    (assOf (updAss s i f) l).num_active = (assOf s l).num_active :=
  proj_assOf_updAss (fun a => a.num_active) s i f l hf

/-- `unassign` preserves every `num_active` counter. -/
theorem num_active_unassign (s : SolverState) (x l : Nat) :
    (assOf (unassign s x) l).num_active = (assOf s l).num_active := by
  unfold unassign
  dsimp only
  rw [num_active_updAss_keep, num_active_updAss_keep]
  · exact fun a => rfl
  · exact fun a => rfl

/-- `trail_queue_lit` preserves every `num_active` counter. -/
theorem num_active_queue (s : SolverState) (x t l : Nat) :
    (assOf (trail_queue_lit s x t) l).num_active = (assOf s l).num_active := by
  unfold trail_queue_lit
  dsimp only
  rw [assOf_pushTrailSlot, num_active_updAss_keep, num_active_updAss_keep]
  · exact fun a => rfl
  · exact fun a => rfl

/-- `pushWatch` preserves every `num_active` counter. -/
theorem num_active_pushWatch (s : SolverState) (x c l : Nat) :
    (assOf (pushWatch s x c) l).num_active = (assOf s l).num_active := by
  unfold pushWatch
  rw [num_active_updAss_keep]
  exact fun a => rfl

/-- The backward walk of `backtrack` preserves every counter. -/
theorem num_active_btWalk (k : Nat) :
    ∀ (i : Nat) (s : SolverState) (l : Nat),
      (assOf (btWalk k s i).1 l).num_active = (assOf s l).num_active := by
  intro i
  induction i with
  | zero =>
    intro s l
    unfold btWalk
    split
    · exact num_active_unassign _ _ _
    · rfl
  | succ i ih =>
    intro s l
    unfold btWalk
    split
    · rw [ih, num_active_unassign]
    · rfl

/-- `backtrack` preserves every counter. -/
theorem num_active_backtrack (s : SolverState) (k l : Nat) :
    (assOf (backtrack s k) l).num_active = (assOf s l).num_active := by
  unfold backtrack
  dsimp only
  rw [assOf_setHeadTailLevel, num_active_btWalk]

/-- Claim C6, repair half: `CDCL_repair_conflict` leaves every
`num_active` counter unchanged; in particular the learned clause's
literals are not counted. -/
theorem num_active_repair (s : SolverState) (l : Nat) :
    (assOf (CDCL_repair_conflict s).1 l).num_active = (assOf s l).num_active := by
  unfold CDCL_repair_conflict
  dsimp only
  split
  · rfl
  · split
    · rw [num_active_queue, num_active_backtrack, assOf_appendLearnedRef,
        num_active_pushWatch, num_active_pushWatch, assOf_appendClause,
        assOf_bumpConflicts]
    · rw [num_active_queue, num_active_backtrack, assOf_bumpConflicts]

-- FIELD INVARIANCE OF THE INITIALIZATION LOOPS

/-- `updAss` leaves `num_vars` unchanged. -/
theorem updAss_num_vars (s : SolverState) (i : Nat) (f : Ass → Ass) :
    (updAss s i f).num_vars = s.num_vars := rfl

/-- `updAss` leaves the model length unchanged. -/
theorem updAss_model_length (s : SolverState) (i : Nat) (f : Ass → Ass) :
    (updAss s i f).model.length = s.model.length := by
  show (s.model.set _ _).length = _
  rw [List.length_set]

/-- `pushWatch` leaves `num_vars` unchanged. -/
theorem pushWatch_num_vars (s : SolverState) (x c : Nat) :
    (pushWatch s x c).num_vars = s.num_vars := rfl

/-- `pushWatch` leaves the model length unchanged. -/
theorem pushWatch_model_length (s : SolverState) (x c : Nat) :
    (pushWatch s x c).model.length = s.model.length := by
  unfold pushWatch
  exact updAss_model_length _ _ _

/-- `appendClause` leaves the model table unchanged. -/
theorem appendClause_model (s : SolverState) (w : List Nat) :
    (appendClause s w).model = s.model := rfl

/-- `pushTrailSlot` leaves the model table unchanged. -/
theorem pushTrailSlot_model (s : SolverState) (x : Nat) :
    (pushTrailSlot s x).model = s.model := rfl

/-- `trail_queue_lit` leaves the model length unchanged. -/
theorem queue_model_length (s : SolverState) (x t : Nat) :
    (trail_queue_lit s x t).model.length = s.model.length := by
  unfold trail_queue_lit
  dsimp only
  rw [show ∀ (u : SolverState) (y : Nat), (pushTrailSlot u y).model = u.model
      from fun u y => rfl]
  rw [updAss_model_length, updAss_model_length]

/-- The literal-reading fold leaves `num_vars` unchanged. -/
theorem initLitFold_num_vars :
    ∀ (c : List Int) (s : SolverState) (acc : List Nat),
      (c.foldl initLitStep (s, acc)).1.num_vars = s.num_vars := by
  intro c
  induction c with
  | nil => intro s acc; rfl
  | cons d t ih => intro s acc; exact ih _ _

/-- The literal-reading fold leaves the model length unchanged. -/
theorem initLitFold_model_length :
    ∀ (c : List Int) (s : SolverState) (acc : List Nat),
      (c.foldl initLitStep (s, acc)).1.model.length = s.model.length := by
  intro c
  induction c with
  | nil => intro s acc; rfl
  | cons d t ih =>
    intro s acc
    rw [List.foldl_cons]
    rw [ih]
    exact updAss_model_length _ _ _

/-- `initClause` leaves `num_vars` unchanged. -/
theorem initClause_num_vars (s : SolverState) (c : List Int) :
    (initClause s c).num_vars = s.num_vars := by
  unfold initClause
  dsimp only
  split
  · rfl
  · split
    · rfl
    · show (pushWatch (pushWatch (appendClause (initLits s c).1 _) _ _) _ _).num_vars = _
      rw [pushWatch_num_vars, pushWatch_num_vars]
      show (initLits s c).1.num_vars = _
      exact initLitFold_num_vars c s []

/-- `initClause` leaves the model length unchanged. -/
theorem initClause_model_length (s : SolverState) (c : List Int) :
    (initClause s c).model.length = s.model.length := by
  unfold initClause
  dsimp only
  split
  · rfl
  · split
    · exact queue_model_length _ _ _
    · show (pushWatch (pushWatch (appendClause (initLits s c).1 _) _ _) _ _).model.length = _
      rw [pushWatch_model_length, pushWatch_model_length, appendClause_model]
      show (initLits s c).1.model.length = _
      exact initLitFold_model_length c s []

-- num_active AFTER INITIALIZATION

/-- Counting effect of the literal-reading fold: each occurrence of a
literal in the clause bumps its counter once. -/
theorem num_active_initLitFold :
    ∀ (c : List Int) (s : SolverState) (acc : List Nat) (l : Nat), l < s.model.length →
      (assOf (c.foldl initLitStep (s, acc)).1 l).num_active
        = (assOf s l).num_active + occCount l (c.map (DIMACS_to_lit s.num_vars)) := by
  intro c
  induction c with
  | nil => intro s acc l hl; rfl
  | cons d t ih =>
    intro s acc l hl
    rw [List.foldl_cons]
    have hstep : initLitStep (s, acc) d =
        (updAss s (DIMACS_to_lit s.num_vars d)
          (fun a => { a with num_active := a.num_active + 1 }),
         acc ++ [DIMACS_to_lit s.num_vars d]) := rfl
    rw [hstep]
    rw [ih _ _ _ (by rw [updAss_model_length]; exact hl)]
    rw [updAss_num_vars]
    rw [assOf_updAss]
    show _ = (assOf s l).num_active +
      ((if DIMACS_to_lit s.num_vars d = l then 1 else 0) +
        occCount l (t.map (DIMACS_to_lit s.num_vars)))
    by_cases hc : l = DIMACS_to_lit s.num_vars d
    · rw [if_pos ⟨hc, hc ▸ hl⟩, if_pos hc.symm]
      have hf : ((fun a => ({ a with num_active := a.num_active + 1 } : Ass))
          (assOf s (DIMACS_to_lit s.num_vars d))).num_active
          = (assOf s (DIMACS_to_lit s.num_vars d)).num_active + 1 := rfl
      rw [hf, hc]
      omega
    · rw [if_neg (fun hh => hc hh.1), if_neg (fun hh => hc hh.symm)]
      omega

/-- Counting effect of reading one clause of the input. -/
theorem num_active_initClause (s : SolverState) (c : List Int) (l : Nat)
    (hl : l < s.model.length) :
    (assOf (initClause s c) l).num_active
      = (assOf s l).num_active +
        (if 2 ≤ c.length then occCount l (c.map (DIMACS_to_lit s.num_vars)) else 0) := by
  unfold initClause
  dsimp only
  split
  · rw [if_neg (by omega)]
    omega
  · split
    · rw [num_active_queue, if_neg (by omega)]
      omega
    · rw [num_active_pushWatch, num_active_pushWatch, assOf_appendClause]
      show (assOf (initLits s c).1 l).num_active = _
      unfold initLits
      rw [num_active_initLitFold c s [] l hl]
      rw [if_pos (by omega)]

/-- Counting effect of the whole clause-reading loop. -/
theorem num_active_initFold :
    ∀ (input : List (List Int)) (s : SolverState) (l : Nat), l < s.model.length →
      (assOf (input.foldl initClause s) l).num_active
        = (assOf s l).num_active + storedOccCount s.num_vars input l := by
  intro input
  induction input with
  | nil => intro s l hl; rfl
  | cons c t ih =>
    intro s l hl
    rw [List.foldl_cons]
    rw [ih _ _ (by rw [initClause_model_length]; exact hl)]
    rw [initClause_num_vars]
    rw [num_active_initClause s c l hl]
    show _ = (assOf s l).num_active +
      ((if 2 ≤ c.length then occCount l (c.map (DIMACS_to_lit s.num_vars)) else 0) +
        storedOccCount s.num_vars t l)
    omega

/-- `decActives` decrements a literal's counter once per occurrence of
the literal in the processed list. -/
theorem num_active_decActives :
    ∀ (lits : List Nat) (s : SolverState) (l : Nat), l < s.model.length →
      (assOf (decActives s lits) l).num_active
        = (assOf s l).num_active - occCount l lits := by
  intro lits
  induction lits with
  | nil => intro s l hl; rfl
  | cons x t ih =>
    intro s l hl
    have hstep : decActives s (x :: t)
        = decActives (updAss s x (fun a => { a with num_active := a.num_active - 1 })) t :=
      rfl
    rw [hstep, ih _ _ (by rw [updAss_model_length]; exact hl)]
    rw [assOf_updAss]
    show _ = (assOf s l).num_active - ((if x = l then 1 else 0) + occCount l t)
    by_cases hc : l = x
    · rw [if_pos ⟨hc, hc ▸ hl⟩, if_pos hc.symm]
      have hf : ((fun a => ({ a with num_active := a.num_active - 1 } : Ass))
          (assOf s x)).num_active = (assOf s x).num_active - 1 := rfl
      rw [hf, hc]
      omega
    · rw [if_neg (fun hh => hc hh.1), if_neg (fun hh => hc hh.symm)]
      omega

/-- Claim C6 (amended): after `CDCL_init` the counter `num_active[l]`
equals the number of occurrences of `l` among the stored input clauses
of width at least 2; the extinction action of the propagator — the
state update `markExtinct (decActives s lits) cref` performed verbatim
by both extinction branches of the clause scan — decrements the
counter once per occurrence of the literal in the extinguished
clause; and `CDCL_repair_conflict` leaves every counter unchanged, so
the learned clause it appends is never counted. -/
theorem num_active_accounting (V : Nat) (input : List (List Int)) (l : Nat)
    (hl : l < 2 * V) :
    (assOf (CDCL_init V input) l).num_active = storedOccCount V input l ∧
    (∀ (s : SolverState) (lits : List Nat) (cref m : Nat), m < s.model.length →
      (assOf (markExtinct (decActives s lits) cref) m).num_active
        = (assOf s m).num_active - occCount m lits) ∧
    ∀ (s : SolverState) (m : Nat),
      (assOf (CDCL_repair_conflict s).1 m).num_active = (assOf s m).num_active := by
  refine ⟨?_, ?_, ?_⟩
  · unfold CDCL_init
    rw [num_active_initFold input _ l (by simpa using hl)]
    show (assOf _ l).num_active + storedOccCount V input l = _
    have hbase : ((List.replicate (2 * V) (default : Ass)).getD l default) = default := by
      rw [getD_replicate _ _ _ _ hl]
    show ((List.replicate (2 * V) (default : Ass)).getD l default).num_active +
      storedOccCount V input l = _
    rw [hbase]
    show 0 + storedOccCount V input l = storedOccCount V input l
    rw [Nat.zero_add]
  · intro s lits cref m hm
    rw [assOf_markExtinct]
    exact num_active_decActives lits s m hm
  · intro s m
    exact num_active_repair s m

/-- Witness for the amended C6 at `V = 3`, `input = inputA`, `l = 3`. -/
theorem num_active_accounting_witness :
    3 < 2 * 3 ∧
    ((assOf (CDCL_init 3 inputA) 3).num_active = storedOccCount 3 inputA 3 ∧
      (∀ (s : SolverState) (lits : List Nat) (cref m : Nat), m < s.model.length →
        (assOf (markExtinct (decActives s lits) cref) m).num_active
          = (assOf s m).num_active - occCount m lits) ∧
      ∀ (s : SolverState) (m : Nat),
        (assOf (CDCL_repair_conflict s).1 m).num_active = (assOf s m).num_active) :=
  ⟨by decide, num_active_accounting 3 inputA 3 (by decide)⟩

-- BACKTRACK IDEMPOTENCE

/-- After `unassign s x`, the decision level read at `l` is `DEC_MAX`
whenever `l` is `x`, its complement, or already had level `DEC_MAX`. -/
theorem dec_level_after_unassign (s : SolverState) (x l : Nat)
    (h : l = x ∨ l = get_comp_lit s.num_vars x ∨ (assOf s l).dec_level = DEC_MAX) :
    (assOf (unassign s x) l).dec_level = DEC_MAX := by
  unfold unassign
  dsimp only
  rw [assOf_updAss]
  split
  · rfl
  · next hnot1 =>
    rw [assOf_updAss]
    split
    · rfl
    · next hnot2 =>
      rcases h with h | h | h
      · subst h
        have hx : ¬ l < s.model.length := fun hc => hnot2 ⟨rfl, hc⟩
        rw [assOf_oob s l (Nat.le_of_not_lt hx)]
        rfl
      · subst h
        have hx : ¬ get_comp_lit s.num_vars x <
            (updAss s x (fun a => { a with dec_level := DEC_MAX })).model.length :=
          fun hc => hnot1 ⟨rfl, hc⟩
        rw [updAss_model_length] at hx
        rw [assOf_oob s _ (Nat.le_of_not_lt hx)]
        rfl
      · exact h

/-- `unassign` is the identity on a variable that is already
unassigned on both sides. -/
theorem unassign_noop (s : SolverState) (x : Nat)
    (h1 : (assOf s x).dec_level = DEC_MAX)
    (h2 : (assOf s (get_comp_lit s.num_vars x)).dec_level = DEC_MAX) :
    unassign s x = s := by
  have step : ∀ (t : SolverState) (y : Nat), (assOf t y).dec_level = DEC_MAX →
      updAss t y (fun a => { a with dec_level := DEC_MAX }) = t := by
    intro t y hy
    unfold updAss
    have hval : (fun a => ({ a with dec_level := DEC_MAX } : Ass)) (t.model.getD y default)
        = t.model.getD y default := by
      have hy2 : (t.model.getD y default).dec_level = DEC_MAX := hy
      cases hrec : t.model.getD y default with
      | mk f1 f2 f3 f4 f5 f6 =>
        rw [hrec] at hy2
        simp only at hy2
        rw [hy2]
    rw [hval, set_getD_self]
  unfold unassign
  dsimp only
  rw [step s x h1]
  exact step s _ h2

/-- When the level at the inspected slot does not exceed the target,
the walk stops immediately, one slot above. -/
theorem btWalk_stop_now (k : Nat) (s : SolverState) (i : Nat)
    (h : ¬ k < (assOf s (s.seq.getD i 0)).dec_level) :
    btWalk k s i = (s, i + 1) := by
  cases i with
  | zero =>
    unfold btWalk
    rw [if_neg h]
  | succ j =>
    unfold btWalk
    rw [if_neg h]

/-- The backward walk, entered on a slot whose level exceeds the
target, always ends in the stop shape `StopSpec`. -/
theorem btWalk_stop (k : Nat) :
    ∀ (i : Nat) (s : SolverState),
      k < (assOf s (s.seq.getD i 0)).dec_level →
      StopSpec (btWalk k s i).1 k (btWalk k s i).2 := by
  intro i
  induction i with
  | zero =>
    intro s h
    unfold btWalk
    rw [if_pos h]
    refine ⟨⟨?_, ?_⟩, Or.inl rfl⟩
    · exact dec_level_after_unassign s _ _ (Or.inl rfl)
    · exact dec_level_after_unassign s _ _ (Or.inr (Or.inl rfl))
  | succ i ih =>
    intro s h
    unfold btWalk
    rw [if_pos h]
    by_cases hc : k < (assOf (unassign s (s.seq.getD (i + 1) 0))
        ((unassign s (s.seq.getD (i + 1) 0)).seq.getD i 0)).dec_level
    · exact ih _ hc
    · rw [btWalk_stop_now k _ i hc]
      refine ⟨⟨?_, ?_⟩, Or.inr ?_⟩
      · exact dec_level_after_unassign s _ _ (Or.inl rfl)
      · exact dec_level_after_unassign s _ _ (Or.inr (Or.inl rfl))
      · exact Nat.le_of_not_lt hc

/-- A walk started at a stop shape does not move: it revisits the slot
(already unassigned, so unassigning again is the identity) and stops
on the same head index. -/
theorem btWalk_at_stop (k : Nat) (s : SolverState) (p : Nat) (hk : k < DEC_MAX)
    (h : StopSpec s k p) : btWalk k s p = (s, p) := by
  obtain ⟨⟨h1, h2⟩, hB⟩ := h
  have hnoop : unassign s (s.seq.getD p 0) = s := unassign_noop _ _ h1 h2
  cases p with
  | zero =>
    unfold btWalk
    have hgt : k < (assOf s (s.seq.getD 0 0)).dec_level := by rw [h1]; exact hk
    rw [if_pos hgt, hnoop]
  | succ q =>
    unfold btWalk
    have hgt : k < (assOf s (s.seq.getD (q + 1) 0)).dec_level := by rw [h1]; exact hk
    rw [if_pos hgt, hnoop]
    rcases hB with hB | hB
    · exact absurd hB (Nat.succ_ne_zero q)
    · exact btWalk_stop_now k s q (Nat.not_lt.mpr hB)

/-- Claim C10 (counterexample): `backtrack` is not idempotent on every
reachable state and level.  In the reachable quiescent state `stA3`
the trail head points one past the written trail; the slot it reads
holds the never-written value, which aliases literal 0, assigned at
level 1.  With `k = 1` the walk stops at once and only moves the head
one slot further up: one `backtrack 1` leaves the head at 3, a second
moves it to 4, so the two states differ. -/
theorem backtrack_not_idempotent_at_stA3 :
    stA3.head = 2 ∧
    (assOf stA3 0).dec_level = 1 ∧
    (backtrack stA3 1).head = 3 ∧
    (backtrack (backtrack stA3 1) 1).head = 4 ∧
    backtrack (backtrack stA3 1) 1 ≠ backtrack stA3 1 := by decide

/-- Claim C10 (amended): `backtrack k` run twice gives the same state
as run once whenever the literal in the trail-head slot carries a
decision level greater than `k` (and `k` is below the unassigned
sentinel).  This is the configuration at the solver's only call site:
conflict repair calls `backtrack (d-1)` while the head slot holds the
conflicting literal, assigned at level `d`. -/
theorem backtrack_idempotent (s : SolverState) (k : Nat) (hk : k < DEC_MAX)
    (h : k < (assOf s (s.seq.getD s.head 0)).dec_level) :
    backtrack (backtrack s k) k = backtrack s k := by
  have hst := btWalk_stop k s.head s h
  unfold backtrack
  dsimp only
  have hst2 : StopSpec
      (setHeadTailLevel (btWalk k s s.head).1 (btWalk k s s.head).2 k) k
      (btWalk k s s.head).2 := hst
  have he : btWalk k (setHeadTailLevel (btWalk k s s.head).1 (btWalk k s s.head).2 k)
      (setHeadTailLevel (btWalk k s s.head).1 (btWalk k s s.head).2 k).head
      = (setHeadTailLevel (btWalk k s s.head).1 (btWalk k s s.head).2 k,
          (btWalk k s s.head).2) :=
    btWalk_at_stop k _ _ hk hst2
  rw [he]
  rfl

/-- Witness for C10 on the reachable conflict state `stA5` with
`k = 1`. -/
theorem backtrack_idempotent_witness :
    (1 < DEC_MAX ∧ 1 < (assOf stA5 (stA5.seq.getD stA5.head 0)).dec_level) ∧
      backtrack (backtrack stA5 1) 1 = backtrack stA5 1 :=
  ⟨⟨by decide, by decide⟩, backtrack_idempotent stA5 1 (by decide) (by decide)⟩

-- FIELD PROJECTIONS THROUGH THE REPAIR PIPELINE

/-- `bumpConflicts` changes only the conflict counter. -/
theorem bumpConflicts_model (s : SolverState) : (bumpConflicts s).model = s.model := rfl

theorem bumpConflicts_clauses (s : SolverState) : (bumpConflicts s).clauses = s.clauses := rfl

theorem bumpConflicts_dec_level (s : SolverState) :
    (bumpConflicts s).dec_level = s.dec_level := rfl

/-- Clause arena through the trail and model writers. -/
theorem clauses_queue (s : SolverState) (x t : Nat) :
    (trail_queue_lit s x t).clauses = s.clauses := rfl

theorem clauses_pushWatch (s : SolverState) (x c : Nat) :
    (pushWatch s x c).clauses = s.clauses := rfl

theorem clauses_appendLearnedRef (s : SolverState) (c : Nat) :
    (appendLearnedRef s c).clauses = s.clauses := rfl

theorem clauses_appendClause (s : SolverState) (w : List Nat) :
    (appendClause s w).clauses = s.clauses ++ [⟨w⟩] := rfl

theorem clauses_btWalk (k : Nat) :
    ∀ (i : Nat) (s : SolverState), (btWalk k s i).1.clauses = s.clauses := by
  intro i
  induction i with
  | zero =>
    intro s
    unfold btWalk
    split
    · rfl
    · rfl
  | succ i ih =>
    intro s
    unfold btWalk
    split
    · rw [ih]
      rfl
    · rfl

theorem clauses_backtrack (s : SolverState) (k : Nat) :
    (backtrack s k).clauses = s.clauses := by
  unfold backtrack
  dsimp only
  show (btWalk k s s.head).1.clauses = _
  exact clauses_btWalk k s.head s

/-- Learned store through the trail and model writers. -/
theorem learned_refs_queue (s : SolverState) (x t : Nat) :
    (trail_queue_lit s x t).learned_refs = s.learned_refs := rfl

theorem learned_refs_pushWatch (s : SolverState) (x c : Nat) :
    (pushWatch s x c).learned_refs = s.learned_refs := rfl

theorem learned_refs_appendClause (s : SolverState) (w : List Nat) :
    (appendClause s w).learned_refs = s.learned_refs := rfl

theorem learned_refs_appendLearnedRef (s : SolverState) (c : Nat) :
    (appendLearnedRef s c).learned_refs = s.learned_refs ++ [c] := rfl

theorem learned_refs_btWalk (k : Nat) :
    ∀ (i : Nat) (s : SolverState), (btWalk k s i).1.learned_refs = s.learned_refs := by
  intro i
  induction i with
  | zero =>
    intro s
    unfold btWalk
    split
    · rfl
    · rfl
  | succ i ih =>
    intro s
    unfold btWalk
    split
    · rw [ih]
      rfl
    · rfl

theorem learned_refs_backtrack (s : SolverState) (k : Nat) :
    (backtrack s k).learned_refs = s.learned_refs := by
  unfold backtrack
  dsimp only
  show (btWalk k s s.head).1.learned_refs = _
  exact learned_refs_btWalk k s.head s

-- WATCH LISTS THROUGH THE REPAIR PIPELINE

/-- `updAss` with a watch-preserving transform preserves watch lists. -/
theorem watched_updAss_keep (s : SolverState) (i : Nat) (f : Ass → Ass) (l : Nat)
    (hf : ∀ a, (f a).watched_lits = a.watched_lits) :
    (assOf (updAss s i f) l).watched_lits = (assOf s l).watched_lits :=
  proj_assOf_updAss (fun a => a.watched_lits) s i f l hf

/-- `unassign` preserves every watch list. -/
theorem watched_unassign (s : SolverState) (x l : Nat) :
    (assOf (unassign s x) l).watched_lits = (assOf s l).watched_lits := by
  unfold unassign
  dsimp only
  rw [watched_updAss_keep, watched_updAss_keep]
  · exact fun a => rfl
  · exact fun a => rfl

/-- The backward walk preserves every watch list. -/
theorem watched_btWalk (k : Nat) :
    ∀ (i : Nat) (s : SolverState) (l : Nat),
      (assOf (btWalk k s i).1 l).watched_lits = (assOf s l).watched_lits := by
  intro i
  induction i with
  | zero =>
    intro s l
    unfold btWalk
    split
    · exact watched_unassign _ _ _
    · rfl
  | succ i ih =>
    intro s l
    unfold btWalk
    split
    · rw [ih, watched_unassign]
    · rfl

/-- `backtrack` preserves every watch list. -/
theorem watched_backtrack (s : SolverState) (k l : Nat) :
    (assOf (backtrack s k) l).watched_lits = (assOf s l).watched_lits := by
  unfold backtrack
  dsimp only
  rw [assOf_setHeadTailLevel, watched_btWalk]

/-- `trail_queue_lit` preserves every watch list. -/
theorem watched_queue (s : SolverState) (x t l : Nat) :
    (assOf (trail_queue_lit s x t) l).watched_lits = (assOf s l).watched_lits := by
  unfold trail_queue_lit
  dsimp only
  rw [assOf_pushTrailSlot, watched_updAss_keep, watched_updAss_keep]
  · exact fun a => rfl
  · exact fun a => rfl

/-- `pushWatch` does not touch watch lists of other literals. -/
theorem watched_pushWatch_ne (s : SolverState) (x c l : Nat) (h : l ≠ x) :
    (assOf (pushWatch s x c) l).watched_lits = (assOf s l).watched_lits := by
  unfold pushWatch
  rw [assOf_updAss, if_neg (fun hh => h hh.1)]

/-- `pushWatch` appends the clause to the target's watch list. -/
theorem watched_pushWatch_self (s : SolverState) (x c : Nat) (h : x < s.model.length) :
    (assOf (pushWatch s x c) x).watched_lits = (assOf s x).watched_lits ++ [some c] := by
  unfold pushWatch
  rw [assOf_updAss, if_pos ⟨rfl, h⟩]

/-- Reading the first target through both watch pushes of conflict
repair. -/
theorem watched_push_two (base : SolverState) (x0 x1 c l : Nat)
    (h0 : l = x0) (hne : l ≠ x1) (hlt : l < base.model.length) :
    (assOf (pushWatch (pushWatch base x0 c) x1 c) l).watched_lits
      = (assOf base l).watched_lits ++ [some c] := by
  subst h0
  rw [watched_pushWatch_ne _ _ _ _ hne, watched_pushWatch_self _ _ _ hlt]

/-- Reading the second target through both watch pushes of conflict
repair. -/
theorem watched_push_snd (base : SolverState) (x0 x1 c l : Nat)
    (h1 : l = x1) (hne : l ≠ x0) (hlt : l < (pushWatch base x0 c).model.length) :
    (assOf (pushWatch (pushWatch base x0 c) x1 c) l).watched_lits
      = (assOf base l).watched_lits ++ [some c] := by
  subst h1
  rw [watched_pushWatch_self _ _ _ hlt, watched_pushWatch_ne _ _ _ _ hne]

-- THE LEARNED CLAUSE OF CONFLICT REPAIR

/-- The construction loop never changes the clause width. -/
theorem learnFold_length (s : SolverState) (d : Nat) :
    ∀ (vs : List Nat) (acc : List Nat),
      (vs.foldl (learnUpd s d) acc).length = acc.length := by
  intro vs
  induction vs with
  | nil => intro acc; rfl
  | cons v t ih =>
    intro acc
    rw [List.foldl_cons, ih]
    unfold learnUpd
    split
    · exact List.length_set _ _ _
    · rfl

/-- The learned clause has width exactly `d`. -/
theorem buildLearned_len (s : SolverState) (d : Nat) :
    (buildLearned s d).length = d := by
  unfold buildLearned
  rw [learnFold_length]
  exact List.length_replicate _ _

/-- One fully applied step of the construction loop, as an equation
that leaves the folded function untouched. -/
theorem learnUpd_eq (s : SolverState) (d : Nat) (lits : List Nat) (v : Nat) :
    learnUpd s d lits v =
      if (assOf s v).ass_status ≠ AVAILABLE ∧ (assOf s v).ass_type = DEC_ASS then
        lits.set (d - (assOf s v).dec_level)
          (if (assOf s v).truth_value = POSITIVE then get_comp_lit s.num_vars v else v)
      else lits := rfl

/-- Invariant of the construction loop: after scanning the first `m`
variables, the slot for level `k` holds the negation of the level-`k`
decision exactly when that decision's variable is below `m`. -/
theorem buildLearned_slots (s : SolverState) (dv : Nat → Nat)
    (hdv : ∀ k, k < s.dec_level + 1 → 1 ≤ k →
      dv k < s.num_vars ∧
      ((assOf s (dv k)).ass_status ≠ AVAILABLE ∧ (assOf s (dv k)).ass_type = DEC_ASS) ∧
      (assOf s (dv k)).dec_level = k ∧ (assOf s (dv k)).truth_value = POSITIVE)
    (huniq : ∀ v, v < s.num_vars →
      (assOf s v).ass_status ≠ AVAILABLE → (assOf s v).ass_type = DEC_ASS →
      1 ≤ (assOf s v).dec_level ∧ (assOf s v).dec_level ≤ s.dec_level ∧
      dv ((assOf s v).dec_level) = v) :
    ∀ m, m ≤ s.num_vars → ∀ k, 1 ≤ k → k ≤ s.dec_level →
      ((List.range m).foldl (learnUpd s s.dec_level) (List.replicate s.dec_level 0)).getD
          (s.dec_level - k) 0
        = if dv k < m then get_comp_lit s.num_vars (dv k) else 0 := by
  intro m
  induction m with
  | zero =>
    intro _ k hk1 hk2
    rw [if_neg (by omega)]
    show (List.replicate s.dec_level 0).getD (s.dec_level - k) 0 = 0
    rw [getD_replicate _ _ _ _ (by omega)]
  | succ m ih =>
    intro hm k hk1 hk2
    have hrange : List.range (m + 1) = List.range m ++ [m] := by
      rw [List.range_succ]
    rw [hrange, List.foldl_append, List.foldl_cons, List.foldl_nil]
    rw [learnUpd_eq]
    split
    · next hcond =>
      obtain ⟨hu1, hu2, hu3⟩ := huniq m (by omega) hcond.1 hcond.2
      have htr : (assOf s m).truth_value = POSITIVE := by
        have hh := (hdv ((assOf s m).dec_level) (by omega) hu1).2.2.2
        rw [hu3] at hh
        exact hh
      rw [if_pos htr]
      by_cases hkm : k = (assOf s m).dec_level
      · rw [hkm]
        rw [getD_set_self]
        · rw [hu3, if_pos (by omega)]
        · rw [learnFold_length, List.length_replicate]
          omega
      · rw [getD_set_ne]
        rw [ih (by omega) k hk1 hk2]
        have hne : dv k ≠ m := by
          intro hEq
          have hh := (hdv k (by omega) hk1).2.2.1
          rw [hEq] at hh
          exact hkm hh.symm
        by_cases hlt : dv k < m
        · rw [if_pos hlt, if_pos (by omega)]
        · rw [if_neg hlt, if_neg (by omega)]
        · omega
    · next hcond =>
      rw [ih (by omega) k hk1 hk2]
      have hne : dv k ≠ m := by
        intro hEq
        have hc := (hdv k (by omega) hk1).2.1
        rw [hEq] at hc
        exact hcond hc
      by_cases hlt : dv k < m
      · rw [if_pos hlt, if_pos (by omega)]
      · rw [if_neg hlt, if_neg (by omega)]

/-- Claim C7: on a conflict at decision level `d ≥ 2` — with exactly
one decision variable per level `1..d` (`dv k` is the variable decided
positively at level `k`) — conflict repair builds a learned clause of
width exactly `d` whose literal at position `d - k` is the negation of
the level-`k` decision, appends it to the clause arena and the
learned-clause store, and appends it to the watch lists of the
complements of its literals at positions 0 and 1. -/
theorem repair_learned_clause (s : SolverState) (dv : Nat → Nat)
    (hd2 : 2 ≤ s.dec_level)
    (hlen : s.model.length = 2 * s.num_vars)
    (hdv : ∀ k, k < s.dec_level + 1 → 1 ≤ k →
      dv k < s.num_vars ∧
      ((assOf s (dv k)).ass_status ≠ AVAILABLE ∧ (assOf s (dv k)).ass_type = DEC_ASS) ∧
      (assOf s (dv k)).dec_level = k ∧ (assOf s (dv k)).truth_value = POSITIVE)
    (huniq : ∀ v, v < s.num_vars →
      (assOf s v).ass_status ≠ AVAILABLE → (assOf s v).ass_type = DEC_ASS →
      1 ≤ (assOf s v).dec_level ∧ (assOf s v).dec_level ≤ s.dec_level ∧
      dv ((assOf s v).dec_level) = v) :
    (buildLearned s s.dec_level).length = s.dec_level ∧
    (∀ k, k < s.dec_level + 1 → 1 ≤ k →
      (buildLearned s s.dec_level).getD (s.dec_level - k) 0
        = get_comp_lit s.num_vars (dv k)) ∧
    (CDCL_repair_conflict s).1.clauses = s.clauses ++ [⟨buildLearned s s.dec_level⟩] ∧
    (CDCL_repair_conflict s).1.learned_refs = s.learned_refs ++ [s.clauses.length] ∧
    (assOf (CDCL_repair_conflict s).1
        (get_comp_lit s.num_vars ((buildLearned s s.dec_level).getD 0 0))).watched_lits
      = (assOf s (get_comp_lit s.num_vars
          ((buildLearned s s.dec_level).getD 0 0))).watched_lits
        ++ [some s.clauses.length] ∧
    (assOf (CDCL_repair_conflict s).1
        (get_comp_lit s.num_vars ((buildLearned s s.dec_level).getD 1 0))).watched_lits
      = (assOf s (get_comp_lit s.num_vars
          ((buildLearned s s.dec_level).getD 1 0))).watched_lits
        ++ [some s.clauses.length] := by
  have hslots := buildLearned_slots s dv hdv huniq s.num_vars (Nat.le_refl _)
  have hslot : ∀ k, 1 ≤ k → k ≤ s.dec_level →
      (buildLearned s s.dec_level).getD (s.dec_level - k) 0
        = get_comp_lit s.num_vars (dv k) := by
    intro k h1 h2
    have hh := hslots k h1 h2
    rw [if_pos (hdv k (by omega) h1).1] at hh
    exact hh
  have hL0 : (buildLearned s s.dec_level).getD 0 0
      = get_comp_lit s.num_vars (dv s.dec_level) := by
    have hh := hslot s.dec_level (by omega) (Nat.le_refl _)
    rw [Nat.sub_self] at hh
    exact hh
  have hL1 : (buildLearned s s.dec_level).getD 1 0
      = get_comp_lit s.num_vars (dv (s.dec_level - 1)) := by
    have hh := hslot (s.dec_level - 1) (by omega) (by omega)
    rw [show s.dec_level - (s.dec_level - 1) = 1 from by omega] at hh
    exact hh
  have hdvd : dv s.dec_level < s.num_vars := (hdv s.dec_level (by omega) (by omega)).1
  have hdvd1 : dv (s.dec_level - 1) < s.num_vars :=
    (hdv (s.dec_level - 1) (by omega) (by omega)).1
  have hcompd : get_comp_lit s.num_vars (get_comp_lit s.num_vars (dv s.dec_level))
      = dv s.dec_level := by
    unfold get_comp_lit
    rw [if_pos hdvd, if_neg (by omega)]
    omega
  have hcompd1 : get_comp_lit s.num_vars (get_comp_lit s.num_vars (dv (s.dec_level - 1)))
      = dv (s.dec_level - 1) := by
    unfold get_comp_lit
    rw [if_pos hdvd1, if_neg (by omega)]
    omega
  have hT0 : get_comp_lit s.num_vars ((buildLearned s s.dec_level).getD 0 0)
      = dv s.dec_level := by
    rw [hL0]
    exact hcompd
  have hT1 : get_comp_lit s.num_vars ((buildLearned s s.dec_level).getD 1 0)
      = dv (s.dec_level - 1) := by
    rw [hL1]
    exact hcompd1
  have hdd : dv s.dec_level ≠ dv (s.dec_level - 1) := by
    intro hEq
    have e1 := (hdv s.dec_level (by omega) (by omega)).2.2.1
    have e2 := (hdv (s.dec_level - 1) (by omega) (by omega)).2.2.1
    rw [hEq] at e1
    rw [e1] at e2
    omega
  have h0 : ¬ (bumpConflicts s).dec_level = 0 := by
    rw [bumpConflicts_dec_level]
    omega
  have h1 : (bumpConflicts s).dec_level ≠ 1 := by
    rw [bumpConflicts_dec_level]
    omega
  refine ⟨buildLearned_len s s.dec_level, ?_, ?_, ?_, ?_, ?_⟩
  · intro k hklt hk1
    exact hslot k hk1 (by omega)
  · unfold CDCL_repair_conflict
    dsimp only
    rw [if_neg h0, if_pos h1]
    dsimp only
    rw [clauses_queue, clauses_backtrack, clauses_appendLearnedRef, clauses_pushWatch,
      clauses_pushWatch, clauses_appendClause, bumpConflicts_clauses]
    rfl
  · unfold CDCL_repair_conflict
    dsimp only
    rw [if_neg h0, if_pos h1]
    dsimp only
    rw [learned_refs_queue, learned_refs_backtrack, learned_refs_appendLearnedRef,
      learned_refs_pushWatch, learned_refs_pushWatch, learned_refs_appendClause]
    rfl
  · unfold CDCL_repair_conflict
    dsimp only
    rw [if_neg h0, if_pos h1]
    dsimp only
    rw [watched_queue, watched_backtrack, assOf_appendLearnedRef]
    rw [watched_push_two]
    · rfl
    · rfl
    · show get_comp_lit s.num_vars ((buildLearned s s.dec_level).getD 0 0)
        ≠ get_comp_lit s.num_vars ((buildLearned s s.dec_level).getD 1 0)
      rw [hT0, hT1]
      exact hdd
    · show get_comp_lit s.num_vars ((buildLearned s s.dec_level).getD 0 0)
        < (appendClause (bumpConflicts s) (buildLearned s s.dec_level)).model.length
      rw [appendClause_model, bumpConflicts_model, hlen, hT0]
      omega
  · unfold CDCL_repair_conflict
    dsimp only
    rw [if_neg h0, if_pos h1]
    dsimp only
    rw [watched_queue, watched_backtrack, assOf_appendLearnedRef]
    rw [watched_push_snd]
    · rfl
    · rfl
    · show get_comp_lit s.num_vars ((buildLearned s s.dec_level).getD 1 0)
        ≠ get_comp_lit s.num_vars ((buildLearned s s.dec_level).getD 0 0)
      rw [hT0, hT1]
      exact fun hh => hdd hh.symm
    · show get_comp_lit s.num_vars ((buildLearned s s.dec_level).getD 1 0)
        < (pushWatch (appendClause (bumpConflicts s) (buildLearned s s.dec_level))
            (get_comp_lit s.num_vars ((buildLearned s s.dec_level).getD 0 0))
            s.clauses.length).model.length
      rw [pushWatch_model_length, appendClause_model, bumpConflicts_model, hlen, hT1]
      omega

/-- Witness for C7 on the handcrafted two-decision state `stE0`. -/
theorem repair_learned_clause_witness :
    (2 ≤ stE0.dec_level ∧ stE0.model.length = 2 * stE0.num_vars) ∧
    ((buildLearned stE0 stE0.dec_level).length = stE0.dec_level ∧
      (∀ k, k < stE0.dec_level + 1 → 1 ≤ k →
        (buildLearned stE0 stE0.dec_level).getD (stE0.dec_level - k) 0
          = get_comp_lit stE0.num_vars (dvE0 k)) ∧
      (CDCL_repair_conflict stE0).1.clauses
        = stE0.clauses ++ [⟨buildLearned stE0 stE0.dec_level⟩] ∧
      (CDCL_repair_conflict stE0).1.learned_refs
        = stE0.learned_refs ++ [stE0.clauses.length] ∧
      (assOf (CDCL_repair_conflict stE0).1
          (get_comp_lit stE0.num_vars ((buildLearned stE0 stE0.dec_level).getD 0 0))).watched_lits
        = (assOf stE0 (get_comp_lit stE0.num_vars
            ((buildLearned stE0 stE0.dec_level).getD 0 0))).watched_lits
          ++ [some stE0.clauses.length] ∧
      (assOf (CDCL_repair_conflict stE0).1
          (get_comp_lit stE0.num_vars ((buildLearned stE0 stE0.dec_level).getD 1 0))).watched_lits
        = (assOf stE0 (get_comp_lit stE0.num_vars
            ((buildLearned stE0 stE0.dec_level).getD 1 0))).watched_lits
          ++ [some stE0.clauses.length]) :=
  ⟨⟨by decide, by decide⟩,
    repair_learned_clause stE0 dvE0 (by decide) (by decide) (by decide) (by decide)⟩
